import Mathlib

/-!
Verification development for the `fun_DB_search` repository (the
`ncbi_toolkit` Python package).  The Python source is shallowly embedded:
sequences become `List Char`, Python dictionaries become association
lists, dynamically typed Python values become the inductive type `PyVal`,
fallible methods return `Except`, and the network side effects of the
Entrez client are modelled by an explicit oracle together with a request
log.  Python's `str.upper()` is modelled by `Char.toUpper` (the sequences
and alphabets involved are ASCII); real-number arithmetic (`/`, `sum/len`)
is modelled over `ℚ`, which is exact on every value the claims mention.
-/

namespace NCBIToolkit

/-- An element of a Python list, with just enough structure to decide the
`isinstance` checks the code performs on list elements: strings, ints,
floats, bools, and an opaque constructor `obj` for any other Python object
(dicts, nested lists, custom classes, ...); the code never inspects deeper
than one level into a list. -/
inductive PyAtom where
  | str (s : String)
  | int (n : Int)
  | float (q : ℚ)
  | bool (b : Bool)
  | obj (tag : String)
  deriving DecidableEq, Repr

/-- A dynamically typed Python value, with just enough structure to decide
the `isinstance` checks the code performs: strings, ints, floats, bools,
lists (of `PyAtom`s), and an opaque constructor `obj` for any other
Python object (dicts, references, custom classes, ...). -/
inductive PyVal where
  | str (s : String)
  | int (n : Int)
  | float (q : ℚ)
  | bool (b : Bool)
  | list (xs : List PyAtom)
  | obj (tag : String)
  deriving DecidableEq, Repr

/-- Python check `isinstance(v, (str, int, float, bool))` — the filter used on
annotation values in `RecordExporter.export_json`. -/
def PyVal.isPrimitive : PyVal → Bool
  | .str _ => true
  | .int _ => true
  | .float _ => true
  | .bool _ => true
  | _ => false

/-- Python check `isinstance(v, (list, str))` — the filter used on feature-qualifier
values in `RecordExporter.export_json`. -/
def PyVal.isListOrStr : PyVal → Bool
  | .list _ => true
  | .str _ => true
  | _ => false

/-- A value of list-of-string type (the type named by the spec's
"list-of-string"): a `list` whose every element is a `str`. -/
def PyVal.isListOfStr : PyVal → Bool
  | .list xs => xs.all fun v => match v with | PyAtom.str _ => true | _ => false
  | _ => false

/-- A `Bio.SeqFeature` as the toolkit uses it: a type, a printed
location, a strand and a qualifier dictionary. -/
structure Feature where
  ftype : String
  location : String
  strand : Option Int
  qualifiers : List (String × PyVal)
  deriving DecidableEq, Repr

/-- A `Bio.SeqRecord.SeqRecord` as the toolkit uses it. -/
structure Record where
  id : String
  name : String
  description : String
  seq : List Char
  annotations : List (String × PyVal)
  features : List Feature
  deriving DecidableEq, Repr

/-- Python `dict.get(key, default)` on an association list. -/
def dictGet (d : List (String × PyVal)) (key : String) (default : PyVal) : PyVal :=
  (d.lookup key).getD default

/-! ## `RecordAnalyzer` (src/ncbi_toolkit/record_analyzer.py) -/

/-- Model of `RecordAnalyzer._guess_sequence_type`: uppercase the sequence; empty →
`"unknown"`; contains `U` and no `T` → `"RNA"`; every character in
`{A,T,C,G,N}` → `"DNA"`; otherwise `"protein"`. -/
def guess_sequence_type (seq : List Char) : String :=
  let seq_str := seq.map Char.toUpper
  if seq_str = [] then "unknown"
  else if 'U' ∈ seq_str ∧ 'T' ∉ seq_str then "RNA"
  else if seq_str.all fun c => c ∈ ['A', 'T', 'C', 'G', 'N'] then "DNA"
  else "protein"

/-- Model of `RecordAnalyzer.calculate_gc_content`: raises `ValueError` unless the
guessed type is DNA or RNA; otherwise `(count G + count C)/len * 100`
(`0.0` when the length is `0`).  `raise ValueError msg` is modelled as
`Except.error msg`. -/
def calculate_gc_content (record : Record) : Except String ℚ :=
  let seq_type := guess_sequence_type record.seq
  if seq_type ∉ (["DNA", "RNA"] : List String) then
    Except.error ("GC content only applicable to DNA/RNA, not " ++ seq_type)
  else
    let seq_str := record.seq.map Char.toUpper
    let gc_count := (seq_str.count 'G') + (seq_str.count 'C')
    let total := seq_str.length
    if total > 0 then Except.ok ((gc_count : ℚ) / (total : ℚ) * 100)
    else Except.ok 0

/-- Model of `RecordAnalyzer.filter_by_length`: starts from the whole list, filters
by `len(r.seq) >= min_length` when a minimum is given, then by
`len(r.seq) <= max_length` when a maximum is given. -/
def filter_by_length (records : List Record)
    (min_length : Option Nat) (max_length : Option Nat) : List Record :=
  let filtered := records
  let filtered := match min_length with
    | some m => filtered.filter fun r => m ≤ r.seq.length
    | none => filtered
  let filtered := match max_length with
    | some m => filtered.filter fun r => r.seq.length ≤ m
    | none => filtered
  filtered

/-- Lookup `r.annotations.get('organism', 'Unknown')` as used by
`compare_records` (and `get_organism`). -/
def organism_annotation (r : Record) : PyVal :=
  dictGet r.annotations "organism" (PyVal.str "Unknown")

/-- Model of `RecordAnalyzer.compare_records`: empty dict for an empty list;
otherwise a dict with exactly the keys below.  The Python dict is
modelled as an association list in the literal's order; `min`/`max`/`sum`
over the non-empty lengths list are folds from its head, `len(set(...))`
is `List.dedup.length`, and the float average is computed in `ℚ`. -/
def compare_records (records : List Record) : List (String × ℚ) :=
  match records with
  | [] => []
  | r :: rs =>
    let lengths : List ℕ := (r :: rs).map fun x => x.seq.length
    let rest : List ℕ := rs.map fun x => x.seq.length
    [ ("total_records", ((r :: rs).length : ℚ)),
      ("avg_length", ((lengths.sum : ℕ) : ℚ) / ((lengths.length : ℕ) : ℚ)),
      ("min_length", ((rest.foldl Nat.min r.seq.length : Nat) : ℚ)),
      ("max_length", ((rest.foldl Nat.max r.seq.length : Nat) : ℚ)),
      ("total_bases", ((lengths.sum : ℕ) : ℚ)),
      ("unique_organisms",
        ((((r :: rs).map organism_annotation).dedup.length : Nat) : ℚ)) ]

/-! ## `RecordExporter` (src/ncbi_toolkit/record_exporter.py)

The exporters build an in-memory representation and write it to disk.
`json.dump` followed by `json.load` is the identity on the data handed to
`json.dump` (a property of Python's standard library, not of this
repository), so the JSON round trip is settled on the dictionary `data`
that `export_json` constructs, modelled by `export_json_data` below. -/

/-- One feature entry of `export_json`'s `record_dict['features']`:
qualifiers are kept only when `isinstance(v, (list, str))`. -/
structure ExportedFeature where
  ftype : String
  location : String
  qualifiers : List (String × PyVal)
  deriving DecidableEq, Repr

/-- One element of the list `data` built by `RecordExporter.export_json`:
annotations are kept only when `isinstance(v, (str, int, float, bool))`;
the feature list is present exactly when `include_features` is true. -/
structure ExportedRecord where
  id : String
  name : String
  description : String
  sequence : List Char
  length : Nat
  annotations : List (String × PyVal)
  features : Option (List ExportedFeature)
  deriving DecidableEq, Repr

/-- The `record_dict` that `export_json` builds for one record. -/
def export_record_dict (record : Record) (include_features : Bool) :
    ExportedRecord :=
  { id := record.id
    name := record.name
    description := record.description
    sequence := record.seq
    length := record.seq.length
    annotations := record.annotations.filter fun kv => kv.2.isPrimitive
    features :=
      if include_features then
        some (record.features.map fun f =>
          { ftype := f.ftype
            location := f.location
            qualifiers := f.qualifiers.filter fun kv => kv.2.isListOrStr })
      else none }

/-- The list `data` that `RecordExporter.export_json` serialises. -/
def export_json_data (records : List Record) (include_features : Bool) :
    List ExportedRecord :=
  records.map fun record => export_record_dict record include_features

/-- Model of `RecordExporter._get_output_path` restricted to its pure part: the
final file name, `filename` with `extension` appended unless already
present.  (Directory creation is a file-system effect outside the
embedding; the claims only concern the produced artifacts.) -/
def get_output_path (filename : String) (extension : String) : String :=
  if filename.endsWith extension then filename else filename ++ extension

/-- Python `dict` assignment `d[k] = v` on an association list: replaces
the value in place if the key is present, else appends. -/
def dictInsert (d : List (String × String)) (k v : String) :
    List (String × String) :=
  if d.any fun kv => kv.1 = k then
    d.map fun kv => if kv.1 = k then (k, v) else kv
  else d ++ [(k, v)]

/-- The body of `export_multiple_formats`'s loop: the `if/elif` chain on
the five accepted names; any other name falls through with no effect.
Each branch records the path of the file the corresponding exporter
returns under the format's key. -/
def export_format_step (base_filename : String)
    (results : List (String × String)) (fmt : String) :
    List (String × String) :=
  if fmt = "fasta" then
    dictInsert results "fasta" (get_output_path base_filename ".fasta")
  else if fmt = "genbank" then
    dictInsert results "genbank" (get_output_path base_filename ".gb")
  else if fmt = "csv" then
    dictInsert results "csv" (get_output_path base_filename ".csv")
  else if fmt = "json" then
    dictInsert results "json" (get_output_path base_filename ".json")
  else if fmt = "summary" then
    dictInsert results "summary" (get_output_path base_filename ".txt")
  else results

/-- Model of `RecordExporter.export_multiple_formats`: iterates over `formats`,
dispatching through the `if/elif` chain and collecting the
format-to-path dictionary. -/
def export_multiple_formats (base_filename : String) (formats : List String) :
    List (String × String) :=
  formats.foldl (export_format_step base_filename) []

/-- The accepted format names of `export_multiple_formats`. -/
def accepted_formats : List String :=
  ["fasta", "genbank", "csv", "json", "summary"]

/-! ## `NCBIConfig` (src/ncbi_toolkit/config.py) -/

/-- The state of an `NCBIConfig` object: the private `_email` and
`_api_key` attributes. -/
structure NCBIConfig where
  email : String
  api_key : Option String
  deriving DecidableEq, Repr

/-- The `email` property setter: raises `ValueError` when
`not value or "@" not in value`; otherwise stores the value.  Python's
`"@" in value` is substring membership, which for the one-character
string `"@"` is membership of the character `'@'`. -/
def email_setter (value : String) : Except String String :=
  if value = "" ∨ '@' ∉ value.toList then
    Except.error "Valid email address is required for NCBI API"
  else Except.ok value

/-- Model of `NCBIConfig.__init__`: assigns through the `email` setter (so the
same validation runs), then stores the api key. -/
def NCBIConfig.init (email : String) (api_key : Option String) :
    Except String NCBIConfig := do
  let e ← email_setter email
  Except.ok { email := e, api_key := api_key }

/-- Assignment `config.email = value` on an existing object. -/
def NCBIConfig.set_email (config : NCBIConfig) (value : String) :
    Except String NCBIConfig := do
  let e ← email_setter value
  Except.ok { config with email := e }

/-! ## `EntrezClient` (src/ncbi_toolkit/entrez_client.py)

The remote NCBI service is modelled by an oracle `Network`; each method
returns its Python result together with the list of HTTP requests it
issued, so "no remote request is made" is a statement about the log. -/

/-- One Entrez round trip. -/
inductive Request where
  | esearch (db term : String) (retmax : Nat)
  | efetch (db : String) (ids : List String) (rettype retmode : String)
  deriving DecidableEq, Repr

/-- The dictionary `Entrez.read` returns for an `esearch`: the claims
only inspect `result.get('IdList', [])`, so the model keeps the optional
`IdList` entry (`none` models an absent key). -/
structure SearchResult where
  idList : Option (List String)
  deriving DecidableEq, Repr

/-- Oracle for the remote NCBI service: what the server would answer to
each request. -/
structure Network where
  esearch : String → String → Nat → SearchResult
  efetch : String → List String → String → String → List Record

/-- Model of `EntrezClient.search`: always one `esearch` round trip. -/
def search (net : Network) (database term : String) (max_results : Nat) :
    SearchResult × List Request :=
  (net.esearch database term max_results,
   [Request.esearch database term max_results])

/-- Model of `EntrezClient.fetch_records`: returns `[]` immediately when `id_list`
is empty (`if not id_list: return []`); otherwise one `efetch` round
trip parsed into records. -/
def fetch_records (net : Network) (database : String) (id_list : List String)
    (return_type : String := "gb") (return_mode : String := "text") :
    List Record × List Request :=
  if id_list = [] then ([], [])
  else
    (net.efetch database id_list return_type return_mode,
     [Request.efetch database id_list return_type return_mode])

/-- Model of `EntrezClient.search_and_fetch`: search, read
`search_results.get('IdList', [])`, return `[]` if it is empty, else
fetch. -/
def search_and_fetch (net : Network) (database term : String)
    (max_results : Nat := 20) (return_type : String := "gb") :
    List Record × List Request :=
  let sr := search net database term max_results
  let id_list := sr.1.idList.getD []
  if id_list = [] then ([], sr.2)
  else
    let fr := fetch_records net database id_list return_type
    (fr.1, sr.2 ++ fr.2)

/-! ## Spec-side definitions (for refinement claims) -/

/-- The classification decision rule exactly as the spec words it: the
empty string yields `unknown`; otherwise a string (uppercased) containing
`U` and not containing `T` yields `RNA`; otherwise a string whose every
character is in `{A,T,C,G,N}` yields `DNA`; otherwise `protein` — with
the RNA check preceding the DNA check. -/
def classify_sequence_spec (seq : List Char) : String :=
  if seq = [] then "unknown"
  else
    let u := seq.map Char.toUpper
    if 'U' ∈ u ∧ 'T' ∉ u then "RNA"
    else if ∀ c ∈ u, c ∈ (['A', 'T', 'C', 'G', 'N'] : List Char) then "DNA"
    else "protein"

/-- A record with the given sequence and no annotations or features, used
for the spec's concrete examples. -/
def plainRecord (seq : List Char) : Record :=
  { id := "seq1", name := "seq1", description := "", seq := seq,
    annotations := [], features := [] }

end NCBIToolkit

namespace NCBIToolkit

/-! ## Claims -/

/-- Claim C1: Sequence classification follows the spec's ordered decision
rule (empty → unknown; `U` without `T` → RNA; all of `{A,T,C,G,N}` → DNA;
otherwise protein, with the RNA check first), and on the spec's examples:
`"" → unknown`, `"ACGU" → RNA`, `"ACGT" → DNA`, `"MKV" → protein`. -/
theorem guess_sequence_type_correct :
    (∀ seq : List Char, guess_sequence_type seq = classify_sequence_spec seq) ∧
    guess_sequence_type [] = "unknown" ∧
    guess_sequence_type ['A', 'C', 'G', 'U'] = "RNA" ∧
    guess_sequence_type ['A', 'C', 'G', 'T'] = "DNA" ∧
    guess_sequence_type ['M', 'K', 'V'] = "protein" := by
  refine ⟨fun seq => ?_, by decide, by decide, by decide, by decide⟩
  unfold guess_sequence_type classify_sequence_spec
  by_cases h0 : seq = []
  · subst h0; simp
  · have h1 : seq.map Char.toUpper ≠ [] := by simpa using h0
    by_cases hR : 'U' ∈ seq.map Char.toUpper ∧ 'T' ∉ seq.map Char.toUpper
    · simp [h0, h1, hR]
    · by_cases hD : ∀ c ∈ seq.map Char.toUpper,
          c ∈ (['A', 'T', 'C', 'G', 'N'] : List Char)
      · simp [h0, h1, hR, hD, List.all_eq_true]
      · simp [h0, h1, hR, hD, List.all_eq_true]

/-- Claim C10: `filter_by_length` with both bounds absent is the
identity. -/
theorem filter_by_length_no_bounds_identity :
    ∀ records : List Record, filter_by_length records none none = records :=
  fun _ => rfl

/-- Claim C7: `filter_by_length` keeps exactly the records whose length
satisfies both (inclusive, optional) bounds, as a subsequence of the
input; with `min=5, max=10` over lengths `[3, 5, 10, 12]` it keeps
exactly the records of lengths 5 and 10. -/
theorem filter_by_length_correct :
    (∀ (records : List Record) (mn mx : Option Nat),
      filter_by_length records mn mx =
        records.filter fun r =>
          (mn.all fun m => m ≤ r.seq.length) &&
            (mx.all fun m => r.seq.length ≤ m)) ∧
    (∀ (records : List Record) (mn mx : Option Nat),
      (filter_by_length records mn mx).Sublist records) ∧
    filter_by_length
        [plainRecord (List.replicate 3 'A'), plainRecord (List.replicate 5 'A'),
         plainRecord (List.replicate 10 'A'), plainRecord (List.replicate 12 'A')]
        (some 5) (some 10) =
      [plainRecord (List.replicate 5 'A'), plainRecord (List.replicate 10 'A')] := by
  have key : ∀ (records : List Record) (mn mx : Option Nat),
      filter_by_length records mn mx =
        records.filter fun r =>
          (mn.all fun m => m ≤ r.seq.length) &&
            (mx.all fun m => r.seq.length ≤ m) := by
    intro records mn mx
    cases mn <;> cases mx <;>
      simp [filter_by_length, Option.all, List.filter_filter, Bool.and_comm]
  refine ⟨key, fun records mn mx => ?_, by decide⟩
  rw [key]
  exact List.filter_sublist records

/-- Claim C2: `calculate_gc_content` raises exactly when the guessed type
is neither DNA nor RNA; otherwise it returns
`(count G + count C) / length * 100` over the uppercased sequence (`0`
for length `0`); and `"GGCC" → 100.0`, `"ATAT" → 0.0`, a protein
sequence raises. -/
theorem calculate_gc_content_correct :
    (∀ r : Record,
      calculate_gc_content r =
        if guess_sequence_type r.seq = "DNA" ∨ guess_sequence_type r.seq = "RNA" then
          (if r.seq.length = 0 then Except.ok 0
           else Except.ok
             ((((r.seq.map Char.toUpper).count 'G' : ℚ) +
               ((r.seq.map Char.toUpper).count 'C' : ℚ)) /
               (r.seq.length : ℚ) * 100))
        else
          Except.error ("GC content only applicable to DNA/RNA, not " ++
            guess_sequence_type r.seq)) ∧
    calculate_gc_content (plainRecord ['G', 'G', 'C', 'C']) = Except.ok 100 ∧
    calculate_gc_content (plainRecord ['A', 'T', 'A', 'T']) = Except.ok 0 ∧
    calculate_gc_content (plainRecord ['M', 'K', 'V']) =
      Except.error "GC content only applicable to DNA/RNA, not protein" := by
  refine ⟨fun r => ?_, ?_, ?_, by rfl⟩
  · simp only [calculate_gc_content, List.mem_cons, List.not_mem_nil, or_false]
    by_cases hT : guess_sequence_type r.seq = "DNA" ∨ guess_sequence_type r.seq = "RNA"
    · simp only [hT, not_true_eq_false, if_false, if_true, List.length_map]
      by_cases hz : r.seq.length = 0
      · simp [hz]
      · simp [hz, Nat.pos_of_ne_zero hz]
    · simp [hT]
  · rw [show calculate_gc_content (plainRecord ['G', 'G', 'C', 'C']) =
        Except.ok (((4 : ℕ) : ℚ) / ((4 : ℕ) : ℚ) * 100) from rfl]
    norm_num
  · rw [show calculate_gc_content (plainRecord ['A', 'T', 'A', 'T']) =
        Except.ok (((0 : ℕ) : ℚ) / ((4 : ℕ) : ℚ) * 100) from rfl]
    norm_num

/-- Claim C3: `compare_records` returns the empty mapping on `[]` and, on a
non-empty list, exactly the keys `total_records`, `avg_length` (the
arithmetic mean of lengths), `min_length`, `max_length`, `total_bases`
(the sum), and `unique_organisms` (distinct organism annotations with
missing → `"Unknown"`); on lengths `[10, 20, 30]` this gives
`3, 20.0, 10, 30, 60`. -/
theorem compare_records_correct :
    compare_records [] = [] ∧
    (∀ (r : Record) (rs : List Record),
      compare_records (r :: rs) =
        [("total_records", ((r :: rs).length : ℚ)),
         ("avg_length",
           (((((r :: rs).map fun x => x.seq.length).sum : ℕ) : ℚ)) /
             (((r :: rs).length : ℕ) : ℚ)),
         ("min_length",
           (((((r :: rs).map fun x => x.seq.length).min?.getD 0 : ℕ)) : ℚ)),
         ("max_length",
           (((((r :: rs).map fun x => x.seq.length).max?.getD 0 : ℕ)) : ℚ)),
         ("total_bases", ((((r :: rs).map fun x => x.seq.length).sum : ℕ) : ℚ)),
         ("unique_organisms",
           ((((r :: rs).map organism_annotation).toFinset.card : ℕ) : ℚ))]) ∧
    compare_records
        [plainRecord (List.replicate 10 'A'), plainRecord (List.replicate 20 'A'),
         plainRecord (List.replicate 30 'A')] =
      [("total_records", 3), ("avg_length", 20), ("min_length", 10),
       ("max_length", 30), ("total_bases", 60), ("unique_organisms", 1)] := by
  refine ⟨rfl, fun r rs => ?_, ?_⟩
  · simp only [compare_records, List.card_toFinset, List.length_map]
    rfl
  · rw [show compare_records
        [plainRecord (List.replicate 10 'A'), plainRecord (List.replicate 20 'A'),
         plainRecord (List.replicate 30 'A')] =
      [("total_records", ((3 : ℕ) : ℚ)),
       ("avg_length", ((60 : ℕ) : ℚ) / ((3 : ℕ) : ℚ)),
       ("min_length", ((10 : ℕ) : ℚ)), ("max_length", ((30 : ℕ) : ℚ)),
       ("total_bases", ((60 : ℕ) : ℚ)), ("unique_organisms", ((1 : ℕ) : ℚ))]
      from rfl]
    norm_num

/-- A feature carrying a qualifier whose value is a list of ints — a
value that is neither of primitive type nor of list-of-string type. -/
def intListFeature : Feature :=
  { ftype := "CDS", location := "[0:4](+)", strand := some 1,
    qualifiers := [("codon_positions", PyVal.list [PyAtom.int 1, PyAtom.int 2])] }

/-- A record whose only feature is `intListFeature`. -/
def intListRecord : Record :=
  { id := "X1", name := "X1", description := "toy", seq := ['A', 'C', 'G', 'T'],
    annotations := [], features := [intListFeature] }

/-- Claim C4, counterexample: The claim says only values of primitive or
list-of-string type are retained; but `export_json`'s qualifier filter is
`isinstance(v, (list, str))`, so a qualifier value that is a list of ints
— neither primitive nor list-of-string — is retained in the export. -/
theorem export_json_retains_nonstring_list :
    (((export_record_dict intListRecord true).features.getD []).map
        fun f => f.qualifiers) =
      [[("codon_positions", PyVal.list [PyAtom.int 1, PyAtom.int 2])]] ∧
    (PyVal.list [PyAtom.int 1, PyAtom.int 2]).isPrimitive = false ∧
    (PyVal.list [PyAtom.int 1, PyAtom.int 2]).isListOfStr = false := by
  decide

/-- Claim C4, amended: JSON export retains exactly the annotation entries
whose value is of primitive type (`str`/`int`/`float`/`bool`) and exactly
the feature-qualifier entries whose value is of list type (with elements
of any type) or string type; every other entry is dropped without warning
and without raising. -/
theorem export_json_type_filter :
    ∀ (record : Record) (k : String) (v : PyVal),
      ((k, v) ∈ (export_record_dict record true).annotations ↔
        (k, v) ∈ record.annotations ∧ v.isPrimitive = true) ∧
      List.Forall₂
        (fun (ef : ExportedFeature) (f : Feature) =>
          ef.ftype = f.ftype ∧ ef.location = f.location ∧
            ((k, v) ∈ ef.qualifiers ↔
              (k, v) ∈ f.qualifiers ∧ v.isListOrStr = true))
        ((export_record_dict record true).features.getD [])
        record.features := by
  intro record k v
  constructor
  · simp [export_record_dict, List.mem_filter]
  · simp only [export_record_dict, if_pos, Option.getD_some]
    rw [List.forall₂_map_left_iff]
    rw [List.forall₂_same]
    intro f _
    refine ⟨rfl, rfl, ?_⟩
    simp [List.mem_filter]

/-- Claim C5: Export to JSON and parse back: `json.load` after `json.dump`
is the identity on the exported data, so the round trip is settled on the
list `export_json_data` hands to `json.dump`: it has one object per
record, in order, whose `id`, `name`, `description`, `sequence` fields
equal the record's and whose `length` equals the sequence's length. -/
theorem export_json_round_trip :
    ∀ (records : List Record) (include_features : Bool),
      (export_json_data records include_features).length = records.length ∧
      List.Forall₂
        (fun (e : ExportedRecord) (r : Record) =>
          e.id = r.id ∧ e.name = r.name ∧ e.description = r.description ∧
            e.sequence = r.seq ∧ e.length = r.seq.length)
        (export_json_data records include_features) records := by
  intro records b
  refine ⟨by simp [export_json_data], ?_⟩
  rw [export_json_data, List.forall₂_map_left_iff, List.forall₂_same]
  intro r _
  exact ⟨rfl, rfl, rfl, rfl, rfl⟩

/-- Keys in a `dictInsert` result: the inserted key or a key already
present. -/
lemma mem_dictInsert (d : List (String × String)) (k v : String)
    (kv : String × String) (h : kv ∈ dictInsert d k v) :
    kv.1 = k ∨ kv ∈ d := by
  unfold dictInsert at h
  split at h
  · obtain ⟨kv', hkv', he⟩ := List.mem_map.mp h
    split at he
    · left; rw [← he]
    · right; rw [← he]; exact hkv'
  · rcases List.mem_append.mp h with h' | h'
    · right; exact h'
    · left; rw [List.mem_singleton.mp h']

/-- One loop step only produces keys among the accepted format names. -/
lemma export_format_step_keys (base : String) (acc : List (String × String))
    (fmt : String) (kv : String × String)
    (h : kv ∈ export_format_step base acc fmt) :
    kv.1 ∈ accepted_formats ∨ kv ∈ acc := by
  unfold export_format_step at h
  split_ifs at h with h1 h2 h3 h4 h5 <;>
    first
      | (rcases mem_dictInsert _ _ _ _ h with hk | hk
         · left; rw [hk]; decide
         · right; exact hk)
      | (right; exact h)

/-- A format name outside the accepted set leaves the loop state
untouched. -/
lemma export_format_step_skip (base : String) (acc : List (String × String))
    (fmt : String) (h : fmt ∉ accepted_formats) :
    export_format_step base acc fmt = acc := by
  simp only [accepted_formats, List.mem_cons, List.not_mem_nil, or_false,
    not_or] at h
  obtain ⟨h1, h2, h3, h4, h5⟩ := h
  simp [export_format_step, h1, h2, h3, h4, h5]

/-- Folding the loop from any state produces only accepted keys beyond
those already in the state. -/
lemma export_foldl_keys (base : String) :
    ∀ (formats : List String) (acc : List (String × String)),
      (∀ kv ∈ acc, kv.1 ∈ accepted_formats) →
      ∀ kv ∈ formats.foldl (export_format_step base) acc,
        kv.1 ∈ accepted_formats := by
  intro formats
  induction formats with
  | nil => intro acc hacc kv hkv; exact hacc kv hkv
  | cons f fs ih =>
    intro acc hacc kv hkv
    refine ih (export_format_step base acc f) ?_ kv hkv
    intro kv' hkv'
    rcases export_format_step_keys base acc f kv' hkv' with h | h
    · exact h
    · exact hacc kv' h

/-- Folding the loop ignores exactly the unaccepted names. -/
lemma export_foldl_filter (base : String) :
    ∀ (formats : List String) (acc : List (String × String)),
      formats.foldl (export_format_step base) acc =
        (formats.filter fun f => f ∈ accepted_formats).foldl
          (export_format_step base) acc := by
  intro formats
  induction formats with
  | nil => intro acc; rfl
  | cons f fs ih =>
    intro acc
    by_cases hf : f ∈ accepted_formats
    · rw [List.foldl_cons, List.filter_cons_of_pos (by simp [hf]),
        List.foldl_cons]
      exact ih (export_format_step base acc f)
    · rw [List.foldl_cons, List.filter_cons_of_neg (by simp [hf]),
        export_format_step_skip base acc f hf]
      exact ih acc

/-- Claim C6: `export_multiple_formats` dispatches only to the accepted
set `{fasta, genbank, csv, json, summary}`: every key of the result is in
that set, names outside it are silently skipped (no entry, no error), and
`formats=['fasta','bogus']` produces exactly the one `fasta` artifact. -/
theorem export_multiple_formats_correct :
    (∀ (base : String) (formats : List String),
      ∀ kv ∈ export_multiple_formats base formats, kv.1 ∈ accepted_formats) ∧
    (∀ (base : String) (formats : List String),
      export_multiple_formats base formats =
        export_multiple_formats base
          (formats.filter fun f => f ∈ accepted_formats)) ∧
    (∀ base : String,
      export_multiple_formats base ["fasta", "bogus"] =
        [("fasta", get_output_path base ".fasta")]) := by
  refine ⟨?_, ?_, ?_⟩
  · intro base formats kv hkv
    exact export_foldl_keys base formats [] (by simp) kv hkv
  · intro base formats
    exact export_foldl_filter base formats []
  · intro base
    rfl

/-- Claim C6, witness: The key-subset part applied at a concrete call. -/
theorem export_multiple_formats_correct_witness :
    ("fasta", get_output_path "seqs" ".fasta") ∈
        export_multiple_formats "seqs" ["fasta", "bogus"] ∧
    ("fasta", get_output_path "seqs" ".fasta").1 ∈ accepted_formats :=
  ⟨by decide,
   export_multiple_formats_correct.1 "seqs" ["fasta", "bogus"]
     ("fasta", get_output_path "seqs" ".fasta") (by decide)⟩

/-- Claim C8: `fetch_records` on an empty id list returns `[]` with no
request issued; `search_and_fetch` whose search yields no identifiers
(absent or empty `IdList`) returns `[]` having issued only the search
request, never a fetch. -/
theorem entrez_empty_short_circuit :
    (∀ (net : Network) (db rt rm : String),
      fetch_records net db [] rt rm = ([], [])) ∧
    (∀ (net : Network) (db term rt : String) (mx : ℕ),
      (net.esearch db term mx).idList.getD [] = [] →
        search_and_fetch net db term mx rt =
          ([], [Request.esearch db term mx])) := by
  constructor
  · intro net db rt rm; rfl
  · intro net db term rt mx h
    simp [search_and_fetch, search, h]

/-- A network whose search answers carry no `IdList` key. -/
def noIdNetwork : Network :=
  { esearch := fun _ _ _ => { idList := none },
    efetch := fun _ _ _ _ => [] }

/-- Claim C8, witness: The short-circuit applied to a concrete network
whose search result has no `IdList`. -/
theorem entrez_empty_short_circuit_witness :
    (noIdNetwork.esearch "nucleotide" "insulin" 20).idList.getD [] = [] ∧
    search_and_fetch noIdNetwork "nucleotide" "insulin" 20 "gb" =
      ([], [Request.esearch "nucleotide" "insulin" 20]) :=
  ⟨rfl,
   entrez_empty_short_circuit.2 noIdNetwork "nucleotide" "insulin" "gb" 20 rfl⟩

/-- Claim C9: Configuration construction and email assignment succeed
exactly when the string contains `'@'`; on success the stored email is
the given string (and the constructor stores the given api key). -/
theorem email_validation_correct :
    ∀ (email : String) (api_key : Option String) (config : NCBIConfig),
      ((∃ c, NCBIConfig.init email api_key = Except.ok c) ↔
        '@' ∈ email.toList) ∧
      ((∃ c, config.set_email email = Except.ok c) ↔ '@' ∈ email.toList) ∧
      (∀ c, NCBIConfig.init email api_key = Except.ok c →
        c.email = email ∧ c.api_key = api_key) ∧
      (∀ c, config.set_email email = Except.ok c →
        c.email = email ∧ c.api_key = config.api_key) := by
  intro email api_key config
  have hset : email_setter email =
      if '@' ∈ email.toList then Except.ok email
      else Except.error "Valid email address is required for NCBI API" := by
    unfold email_setter
    by_cases h : '@' ∈ email.toList
    · have hne : email ≠ "" := by
        intro he
        rw [he] at h
        simp at h
      rw [if_neg (show ¬(email = "" ∨ '@' ∉ email.toList) from
            fun hcon => hcon.elim hne fun hn => hn h),
          if_pos h]
    · rw [if_pos (Or.inr h), if_neg h]
  by_cases h : '@' ∈ email.toList
  · have hinit : NCBIConfig.init email api_key =
        Except.ok { email := email, api_key := api_key } := by
      unfold NCBIConfig.init
      rw [hset, if_pos h]
      rfl
    have hsem : config.set_email email =
        Except.ok { email := email, api_key := config.api_key } := by
      unfold NCBIConfig.set_email
      rw [hset, if_pos h]
      rfl
    refine ⟨⟨fun _ => h, fun _ => ⟨_, hinit⟩⟩,
            ⟨fun _ => h, fun _ => ⟨_, hsem⟩⟩, ?_, ?_⟩
    · intro c hc
      rw [hinit] at hc
      rw [← Except.ok.inj hc]
      exact ⟨rfl, rfl⟩
    · intro c hc
      rw [hsem] at hc
      rw [← Except.ok.inj hc]
      exact ⟨rfl, rfl⟩
  · have hinit : NCBIConfig.init email api_key =
        Except.error "Valid email address is required for NCBI API" := by
      unfold NCBIConfig.init
      rw [hset, if_neg h]
      rfl
    have hsem : config.set_email email =
        Except.error "Valid email address is required for NCBI API" := by
      unfold NCBIConfig.set_email
      rw [hset, if_neg h]
      rfl
    refine ⟨⟨?_, fun hh => absurd hh h⟩, ⟨?_, fun hh => absurd hh h⟩, ?_, ?_⟩
    · rintro ⟨c, hc⟩
      rw [hinit] at hc
      exact absurd hc (by simp)
    · rintro ⟨c, hc⟩
      rw [hsem] at hc
      exact absurd hc (by simp)
    · intro c hc
      rw [hinit] at hc
      exact absurd hc (by simp)
    · intro c hc
      rw [hsem] at hc
      exact absurd hc (by simp)

/-- Claim C9, witness: The characterisation applied at a concrete valid
email. -/
theorem email_validation_correct_witness :
    NCBIConfig.init "user@example.com" (some "k") =
      Except.ok { email := "user@example.com", api_key := some "k" } ∧
    ({ email := "user@example.com", api_key := some "k" } : NCBIConfig).email =
      "user@example.com" ∧
    ({ email := "user@example.com", api_key := some "k" } : NCBIConfig).api_key =
      some "k" :=
  have h : NCBIConfig.init "user@example.com" (some "k") =
      Except.ok { email := "user@example.com", api_key := some "k" } := rfl
  ⟨h,
   ((email_validation_correct "user@example.com" (some "k")
       { email := "x@y", api_key := none }).2.2.1 _ h).1,
   ((email_validation_correct "user@example.com" (some "k")
       { email := "x@y", api_key := none }).2.2.1 _ h).2⟩

end NCBIToolkit
